import Mathlib

/-
Verification of the table-summarization pipeline of the overpaint repository.

The repository holds two variants of one CLI script:
  src/listTables.ts   - plain-text renderer
  src/listTables.tsx  - decorated (ink) renderer with per-column statistics

The definitions below are shallow embeddings of the functions of those two
files.  JavaScript bigints are modelled as Int (division and remainder are
truncating, Int.tdiv / Int.tmod, matching BigInt semantics on all signs);
strings are Lean String values; the value space undefined / null / string of
an optional-and-nullable field is modelled as Option (Option String) with
none = undefined, some none = null, some (some s) = a string.
-/

namespace Overpaint

/-! ## JavaScript value helpers -/

/-- Model of JavaScript string coercion of an undefined / null / string value,
as performed by template literals: undefined prints "undefined", null prints
"null". -/
def jsShow : Option (Option String) → String
  | none => "undefined"
  | some none => "null"
  | some (some s) => s

/-- Model of JavaScript String.prototype.padEnd with a one-space pad string. -/
def padEnd (s : String) (w : Nat) : String :=
  s ++ String.mk (List.replicate (w - s.length) ' ')

/-- Model of JavaScript String.prototype.slice from 0 with positive end. -/
def strTake (s : String) (n : Nat) : String :=
  String.mk (s.data.take n)

/-- Model of JavaScript String.prototype.toLowerCase on the ASCII range, as a
character-wise map. -/
def jsToLower (s : String) : String :=
  String.mk (s.data.map Char.toLower)

/-! ## Data model (types TableInfo, ColumnInfo, TableView of both files) -/

/-- Row of the catalog enumeration query: type TableInfo of the source. -/
structure TableInfo where
  table_schema : String
  table_name : String
  column_count : Nat
  estimated_rows : Int
deriving Repr, DecidableEq

/-- Type ColumnInfo of listTables.tsx.  The statistics fields are
string-or-null-or-undefined, modelled as Option (Option String).  The plain
listTables.ts variant uses only the first two fields. -/
structure ColumnInfo where
  column_name : String
  data_type : String
  min : Option (Option String) := none
  max : Option (Option String) := none
  true_count : Option (Option String) := none
  false_count : Option (Option String) := none
deriving Repr, DecidableEq

/-- Type TableView of the source.  estimated_rows is bigint-or-undefined;
exact_rows is bigint-or-null-or-undefined. -/
structure TableView where
  table_schema : String
  table_name : String
  column_count : Nat
  columns : List ColumnInfo
  estimated_rows : Option Int := none
  exact_rows : Option (Option Int) := none
deriving Repr, DecidableEq

inductive Mode where
  | estimated
  | exact
deriving Repr, DecidableEq

/-! ## Identifier quoting (function quoteIdent, identical in both files) -/

/-- Model of the global regex replace in quoteIdent: each double-quote
character of the input is replaced by two double-quote characters. -/
def escQ : List Char → List Char
  | [] => []
  | c :: cs => if c = '"' then '"' :: '"' :: escQ cs else c :: escQ cs

/-- Function quoteIdent of both source files: wrap in double quotes after
doubling every embedded double quote. -/
def quoteIdent (s : String) : String :=
  "\"" ++ String.mk (escQ s.data) ++ "\""

/-- Left inverse of escQ: collapse each doubled double-quote pair. -/
def unescQ : List Char → List Char
  | [] => []
  | [c] => [c]
  | c :: c2 :: cs =>
    if c = '"' ∧ c2 = '"' then '"' :: unescQ cs else c :: unescQ (c2 :: cs)

/-- Number of double-quote characters in a character list. -/
def countQ (cs : List Char) : Nat := cs.countP (· = '"')

lemma escQ_cons_quote (cs : List Char) : escQ ('"' :: cs) = '"' :: '"' :: escQ cs := by
  rw [escQ]
  exact if_pos rfl

lemma escQ_cons_ne (c : Char) (h : ¬ c = '"') (cs : List Char) :
    escQ (c :: cs) = c :: escQ cs := by
  rw [escQ]
  exact if_neg h

lemma unescQ_cons2_quote (cs : List Char) :
    unescQ ('"' :: '"' :: cs) = '"' :: unescQ cs := by
  rw [unescQ]
  exact if_pos ⟨rfl, rfl⟩

lemma unescQ_cons_ne (c : Char) (h : ¬ c = '"') (cs : List Char) :
    unescQ (c :: cs) = c :: unescQ cs := by
  cases cs with
  | nil => rfl
  | cons c2 cs2 =>
      rw [unescQ]
      exact if_neg (fun hc => h hc.1)

lemma unescQ_escQ (cs : List Char) : unescQ (escQ cs) = cs := by
  induction cs with
  | nil => rfl
  | cons c cs ih =>
      by_cases hc : c = '"'
      · subst hc
        rw [escQ_cons_quote, unescQ_cons2_quote, ih]
      · rw [escQ_cons_ne c hc, unescQ_cons_ne c hc, ih]

lemma countQ_cons (c : Char) (cs : List Char) :
    countQ (c :: cs) = countQ cs + (if c = '"' then 1 else 0) := by
  simp [countQ, List.countP_cons]

lemma countQ_escQ (cs : List Char) : countQ (escQ cs) = 2 * countQ cs := by
  induction cs with
  | nil => rfl
  | cons c cs ih =>
      by_cases hc : c = '"'
      · subst hc
        rw [escQ_cons_quote, countQ_cons, countQ_cons, countQ_cons, ih]
        omega
      · rw [escQ_cons_ne c hc, countQ_cons, countQ_cons, ih, if_neg hc]
        omega

lemma length_escQ (cs : List Char) : (escQ cs).length = cs.length + countQ cs := by
  induction cs with
  | nil => rfl
  | cons c cs ih =>
      by_cases hc : c = '"'
      · subst hc
        rw [escQ_cons_quote, List.length_cons, List.length_cons, List.length_cons,
          countQ_cons, ih, if_pos rfl]
        omega
      · rw [escQ_cons_ne c hc, List.length_cons, List.length_cons,
          countQ_cons, ih, if_neg hc]
        omega

/-- Claim C2: quoteIdent returns the input with every embedded double-quote
character doubled, wrapped exactly once in double quotes; it is a pure total
function.  The escaping is lossless (unescQ recovers the input), doubles
exactly the embedded quotes (quote count doubles), and the only wrapping added
is the single leading and trailing quote (length accounting). -/
theorem c2_quoteIdent_spec (s : String) :
    (quoteIdent s).data = '"' :: (escQ s.data ++ ['"']) ∧
    unescQ (escQ s.data) = s.data ∧
    countQ (escQ s.data) = 2 * countQ s.data ∧
    (quoteIdent s).length = s.length + countQ s.data + 2 := by
  have hd : (quoteIdent s).data = '"' :: (escQ s.data ++ ['"']) := by
    show ("\"" ++ String.mk (escQ s.data) ++ "\"").data = _
    simp [String.data_append]
  refine ⟨hd, unescQ_escQ s.data, countQ_escQ s.data, ?_⟩
  have hlen : (quoteIdent s).length = (quoteIdent s).data.length := rfl
  have hslen : s.length = s.data.length := rfl
  rw [hlen, hd, List.length_cons, List.length_append, length_escQ, hslen]
  simp

/-! ## Percent formatting (functions formatPercentOneDecimal, booleanPercents
of listTables.tsx) -/

/-- Function formatPercentOneDecimal of listTables.tsx.  BigInt division and
remainder truncate toward zero, hence Int.tdiv and Int.tmod. -/
def formatPercentOneDecimal (n d : Int) : String :=
  if d = 0 then "0.0%"
  else
    let permille := Int.tdiv (n * 1000 + Int.tdiv d 2) d
    let whole := Int.tdiv permille 10
    let tenth := Int.tmod permille 10
    toString whole ++ "." ++ toString tenth ++ "%"

/-- Decimal value of a digit list, most significant first. -/
def digitsToNat (ds : List Char) : Nat :=
  ds.foldl (fun a c => a * 10 + (c.toNat - 48)) 0

/-- Value of one digit in radix up to 16, as accepted by BigInt literals. -/
def radixVal (c : Char) : Option Nat :=
  if c.isDigit then some (c.toNat - 48)
  else if 'a' ≤ c ∧ c ≤ 'f' then some (c.toNat - 87)
  else if 'A' ≤ c ∧ c ≤ 'F' then some (c.toNat - 55)
  else none

/-- Digit list value in the given radix, failing on an invalid digit. -/
def radixToNat (r : Nat) (ds : List Char) : Option Nat :=
  ds.foldl
    (fun a c =>
      match a, radixVal c with
      | some n, some v => if v < r then some (n * r + v) else none
      | _, _ => none)
    (some 0)

/-- Nonempty all-decimal-digit parse. -/
def parseDecDigits (ds : List Char) : Option Int :=
  if ds ≠ [] ∧ ds.all Char.isDigit then some (Int.ofNat (digitsToNat ds))
  else none

/-- Whitespace characters trimmed by the BigInt constructor (ASCII fragment). -/
def isJsSpace (c : Char) : Bool :=
  c = ' ' ∨ c = '\t' ∨ c = '\n' ∨ c = '\r'

/-- Model of the JavaScript BigInt(string) constructor on the string forms it
accepts: surrounding whitespace trimmed, the empty string is 0, an optional
sign followed by decimal digits, or an unsigned 0x / 0o / 0b radix literal.
Any other string throws, modelled as none.  (Non-ASCII whitespace is not
modelled.) -/
def parseBigIntJS (s : String) : Option Int :=
  let cs := ((s.data.dropWhile isJsSpace).reverse.dropWhile isJsSpace).reverse
  match cs with
  | [] => some 0
  | '+' :: ds => parseDecDigits ds
  | '-' :: ds => (parseDecDigits ds).map (fun n => -n)
  | '0' :: p :: ds =>
      if p = 'x' ∨ p = 'X' then
        if ds ≠ [] then (radixToNat 16 ds).map Int.ofNat else none
      else if p = 'o' ∨ p = 'O' then
        if ds ≠ [] then (radixToNat 8 ds).map Int.ofNat else none
      else if p = 'b' ∨ p = 'B' then
        if ds ≠ [] then (radixToNat 2 ds).map Int.ofNat else none
      else parseDecDigits ('0' :: p :: ds)
  | ds => parseDecDigits ds

/-- Function booleanPercents of listTables.tsx: parse both count strings with
BigInt, treating a parse failure as 0n, and format both percentages over the
combined total. -/
def booleanPercents (trueStr falseStr : String) : String × String :=
  let t := (parseBigIntJS trueStr).getD 0
  let f := (parseBigIntJS falseStr).getD 0
  let d := t + f
  (formatPercentOneDecimal t d, formatPercentOneDecimal f d)

/-! ## Data type predicates and humanization (listTables.tsx) -/

/-- Function isNumericDataType of listTables.tsx. -/
def isNumericDataType (dt : String) : Bool :=
  let t := jsToLower dt
  t = "numeric" ∨ t = "decimal" ∨ t = "smallint" ∨ t = "integer" ∨
    t = "bigint" ∨ t = "real" ∨ t = "double precision"

/-- Function isBooleanDataType of listTables.tsx. -/
def isBooleanDataType (dt : String) : Bool :=
  jsToLower dt = "boolean"

/-- Function isTemporalDataType of listTables.tsx. -/
def isTemporalDataType (dt : String) : Bool :=
  let t := jsToLower dt
  t = "date" ∨ t = "timestamp with time zone" ∨
    t = "timestamp without time zone" ∨ t = "timestamptz" ∨
    t = "time with time zone" ∨ t = "time without time zone" ∨
    t = "timetz" ∨ t = "timestamp" ∨ t = "time"

/-- The static lookup table of humanDataType in listTables.tsx, in source
order; keys are matched against the lowercased type name. -/
def typeAbbrevTable : List (String × String) :=
  [("timestamp with time zone", "tstz"),
   ("timestamptz", "tstz"),
   ("timestamp without time zone", "ts-ntz"),
   ("timestamp", "ts-ntz"),
   ("time with time zone", "time-tz"),
   ("timetz", "time-tz"),
   ("time without time zone", "time-ntz"),
   ("time", "time-ntz"),
   ("character varying", "varchar"),
   ("varchar", "varchar"),
   ("character", "char"),
   ("char", "char"),
   ("text", "text"),
   ("integer", "int"),
   ("int4", "int"),
   ("bigint", "bigint"),
   ("int8", "bigint"),
   ("smallint", "smallint"),
   ("int2", "smallint"),
   ("numeric", "numeric"),
   ("decimal", "decimal"),
   ("real", "real"),
   ("double precision", "float8"),
   ("float8", "float8"),
   ("boolean", "bool"),
   ("bool", "bool"),
   ("uuid", "uuid"),
   ("jsonb", "jsonb"),
   ("json", "json"),
   ("bytea", "bytea"),
   ("date", "date"),
   ("interval", "interval")]

/-- The value space of the object-literal index map[t] in humanDataType and of
the function result.  The lookup table is a plain object literal, so indexing
it traverses the prototype chain: besides the own string properties, the name
constructor yields the inherited Object constructor function and the name
proto-underscores yields Object.prototype; both are non-string objects. -/
inductive JsValue where
  | str (s : String)
  | objectCtor
  | objectProto
deriving Repr, DecidableEq

/-- Model of the object-literal index map[t] of humanDataType, prototype chain
included: own properties of the static table first; then the two inherited
Object.prototype member names that survive lowercasing (constructor and
proto-underscores, the only all-lowercase ones); every other name yields
undefined. -/
def mapIndex (t : String) : Option JsValue :=
  match typeAbbrevTable.lookup t with
  | some v => some (JsValue.str v)
  | none =>
      if t = "constructor" then some JsValue.objectCtor
      else if t = "__proto__" then some JsValue.objectProto
      else none

/-- Function humanDataType of listTables.tsx: look up the lowercased type name
in the object literal, fall back to the raw input when the index is nullish,
then truncate to 8 characters when the length test fires.  For the two
prototype-chain hits the test out.length > 8 is false (the arity of the Object
constructor is 1 and Object.prototype has no length property), so both objects
are returned unchanged. -/
def humanDataType (dt : String) : JsValue :=
  let t := jsToLower dt
  match mapIndex t with
  | some (JsValue.str v) =>
      if v.length > 8 then JsValue.str (strTake v 8) else JsValue.str v
  | some JsValue.objectCtor => JsValue.objectCtor
  | some JsValue.objectProto => JsValue.objectProto
  | none => if dt.length > 8 then JsValue.str (strTake dt 8) else JsValue.str dt

/-! ## Temporal parsing and range formatting (listTables.tsx)

The source calls the JavaScript Date constructor.  The definitions below model
the ECMAScript date-time string format for offset-free ISO strings
(YYYY-MM-DD, optionally followed by T HH:MM with optional seconds, fraction
and Z), evaluated in UTC; strings with explicit UTC offsets are not modelled
and parse to none.  An unparsable string yields none, matching an Invalid
Date. -/

/-- Parsed UTC components of a JavaScript Date, as consumed by the formatting
helpers (getUTCFullYear, getUTCMonth, getUTCHours, getUTCMinutes). -/
structure DateParts where
  year : Nat
  month : Nat
  day : Nat
  hour : Nat
  minute : Nat
deriving Repr, DecidableEq

def isLeapYear (y : Nat) : Bool :=
  (y % 4 = 0 ∧ y % 100 ≠ 0) ∨ y % 400 = 0

def daysInMonth (y m : Nat) : Nat :=
  if m = 2 then (if isLeapYear y then 29 else 28)
  else if m = 4 ∨ m = 6 ∨ m = 9 ∨ m = 11 then 30
  else 31

/-- Fractional-seconds tail of an ISO time: empty, final Z, or a dot followed
by digits with an optional final Z. -/
def validFracPart : List Char → Bool
  | [] => true
  | ['Z'] => true
  | '.' :: rest =>
      let ds := if rest.getLast? = some 'Z' then rest.dropLast else rest
      ds ≠ [] ∧ ds.all Char.isDigit
  | _ => false

/-- Seconds tail of an ISO time: empty, final Z, or colon-seconds followed by
a fractional tail. -/
def validSecPart : List Char → Bool
  | [] => true
  | ['Z'] => true
  | ':' :: s1 :: s2 :: rest =>
      s1.isDigit ∧ s2.isDigit ∧ digitsToNat [s1, s2] < 60 ∧ validFracPart rest
  | _ => false

/-- HH:MM prefix of an ISO time, returning hours and minutes. -/
def parseTimePart : List Char → Option (Nat × Nat)
  | h1 :: h2 :: ':' :: m1 :: m2 :: rest =>
      if h1.isDigit ∧ h2.isDigit ∧ m1.isDigit ∧ m2.isDigit ∧
          digitsToNat [h1, h2] < 24 ∧ digitsToNat [m1, m2] < 60 ∧
          validSecPart rest then
        some (digitsToNat [h1, h2], digitsToNat [m1, m2])
      else none
  | _ => none

/-- ISO date-time parser fragment of the JavaScript Date constructor (see the
section comment): YYYY-MM-DD with a valid calendar day, optionally followed by
a T and a valid time part. -/
def jsParse : List Char → Option DateParts
  | y1 :: y2 :: y3 :: y4 :: '-' :: m1 :: m2 :: '-' :: d1 :: d2 :: rest =>
      if ([y1, y2, y3, y4, m1, m2, d1, d2]).all Char.isDigit then
        let y := digitsToNat [y1, y2, y3, y4]
        let m := digitsToNat [m1, m2]
        let d := digitsToNat [d1, d2]
        if 1 ≤ m ∧ m ≤ 12 ∧ 1 ≤ d ∧ d ≤ daysInMonth y m then
          match rest with
          | [] => some ⟨y, m, d, 0, 0⟩
          | 'T' :: t => (parseTimePart t).map (fun hm => ⟨y, m, d, hm.1, hm.2⟩)
          | _ => none
        else none
      else none
  | _ => none

/-- Replace the first space character by T: JavaScript replace with a plain
string pattern substitutes only the first occurrence. -/
def replaceFirstSpace : List Char → List Char
  | [] => []
  | ' ' :: cs => 'T' :: cs
  | c :: cs => c :: replaceFirstSpace cs

/-- Function safeParseDateLike of listTables.tsx: normalize a space separator
to T when no T is present, then parse as a Date, with failures as none. -/
def safeParseDateLike (s : String) : Option DateParts :=
  let normalized := if s.data.contains 'T' then s.data else replaceFirstSpace s.data
  jsParse normalized

/-- The segment of a character list after the first T up to the next T, as
produced by JavaScript split on T at index 1. -/
def splitAtFirstT (cs : List Char) : List Char :=
  ((cs.dropWhile (· ≠ 'T')).drop 1).takeWhile (· ≠ 'T')

/-- Test of the regex matching a final Z or numeric UTC offset, used by
parseTimeOnly: a Z anywhere, or sign, two digits, optional colon, two digits
at the end. -/
def endsWithOffset (cs : List Char) : Bool :=
  match cs.reverse with
  | d4 :: d3 :: ':' :: d2 :: d1 :: s :: _ =>
      d1.isDigit ∧ d2.isDigit ∧ d3.isDigit ∧ d4.isDigit ∧ (s = '+' ∨ s = '-')
  | d4 :: d3 :: d2 :: d1 :: s :: _ =>
      d1.isDigit ∧ d2.isDigit ∧ d3.isDigit ∧ d4.isDigit ∧ (s = '+' ∨ s = '-')
  | _ => false

/-- Function parseTimeOnly of listTables.tsx: graft the time part of the input
onto 1970-01-01, append Z when no zone marker is present, and parse. -/
def parseTimeOnly (s : String) : Option DateParts :=
  let timePart := if s.data.contains 'T' then splitAtFirstT s.data else s.data
  let base := ("1970-01-01T").data ++ timePart
  let withZ := if base.contains 'Z' ∨ endsWithOffset base then base else base ++ ['Z']
  jsParse withZ

def monthNames : List String :=
  ["Jan", "Feb", "Mar", "Apr", "May", "Jun",
   "Jul", "Aug", "Sep", "Oct", "Nov", "Dec"]

/-- Function fmtMonthYear of listTables.tsx: month abbreviation indexed by
getUTCMonth (an out-of-range index prints undefined) and the full year. -/
def fmtMonthYear (d : DateParts) : String :=
  monthNames.getD (d.month - 1) "undefined" ++ " " ++ toString d.year

/-- Two-digit zero padding of String(n).padStart(2, "0"). -/
def pad2 (n : Nat) : String :=
  if n < 10 then "0" ++ toString n else toString n

/-- Function fmtHHMM of listTables.tsx. -/
def fmtHHMM (d : DateParts) : String :=
  pad2 d.hour ++ ":" ++ pad2 d.minute

/-- The time-only test at the top of formatTemporalRange. -/
def timeOnlyType (dt : String) : Bool :=
  let t := jsToLower dt
  t.data.take 5 = ("time ").data ∨ t = "time" ∨ t = "timetz"

/-- Function formatTemporalRange of listTables.tsx. -/
def formatTemporalRange (minStr maxStr dt : String) : Option String :=
  if timeOnlyType dt then
    match parseTimeOnly minStr, parseTimeOnly maxStr with
    | some d1, some d2 => some (fmtHHMM d1 ++ "-" ++ fmtHHMM d2)
    | _, _ => none
  else
    match safeParseDateLike minStr, safeParseDateLike maxStr with
    | some d1, some d2 => some (fmtMonthYear d1 ++ "-" ++ fmtMonthYear d2)
    | _, _ => none

/-! ## Renderers

renderTables of listTables.ts prints plain lines; renderTables of
listTables.tsx lays the same data out in an ink component tree.  The content
of the decorated renderer (header text, table heading, count label, column
count, and the name, type label, range and values fields of each column row)
is extracted into RenderContent; the plain renderer is modelled both as its
exact printed lines and as the same content extraction. -/

/-- The count label of renderTables in listTables.ts: a tilde-prefixed
estimate (undefined prints 0) in estimated mode; in exact mode, error for
null, the number otherwise, 0 when undefined. -/
def tsCountLabel (mode : Mode) (v : TableView) : String :=
  match mode with
  | .estimated =>
      "~" ++ (match v.estimated_rows with
              | some n => toString n
              | none => "0")
  | .exact =>
      match v.exact_rows with
      | some none => "error"
      | some (some n) => toString n
      | none => "0"

/-- Function countLabelFor inside renderTables of listTables.tsx; the logic is
the same expression as in the plain variant. -/
def countLabelFor (mode : Mode) (v : TableView) : String :=
  match mode with
  | .estimated =>
      "~" ++ (match v.estimated_rows with
              | some n => toString n
              | none => "0")
  | .exact =>
      match v.exact_rows with
      | some none => "error"
      | some (some n) => toString n
      | none => "0"

/-- Header line of renderTables in listTables.ts. -/
def tsHeaderFor (mode : Mode) : String :=
  match mode with
  | .estimated => "Tables (schema.table) — ~rows (estimated), columns:"
  | .exact => "Tables (schema.table) — rows (exact), columns:"

/-- Header text of renderTables in listTables.tsx. -/
def tsxHeaderFor (mode : Mode) : String :=
  match mode with
  | .estimated => "Tables (schema.table) — ~rows (estimated), columns:"
  | .exact => "Tables (schema.table) — rows (exact), columns:"

/-- The range cell computed for one column in renderTables of listTables.tsx:
min-max for numeric columns, a temporal range for temporal columns (an
unparsable range prints as the empty string), empty otherwise.  The strict
null checks of the source pass undefined through, so the raw field values are
coerced with jsShow. -/
def rangeFor (c : ColumnInfo) : String :=
  if isNumericDataType c.data_type ∧ c.min ≠ some none ∧ c.max ≠ some none then
    jsShow c.min ++ "-" ++ jsShow c.max
  else if isTemporalDataType c.data_type ∧ c.min ≠ some none ∧ c.max ≠ some none then
    (formatTemporalRange (jsShow c.min) (jsShow c.max) c.data_type).getD ""
  else ""

/-- The values cell computed for one column in renderTables of listTables.tsx:
for boolean columns with non-null counts, the yes and no counts with their
percentages. -/
def valuesFor (c : ColumnInfo) : String :=
  if isBooleanDataType c.data_type ∧ c.true_count ≠ some none ∧ c.false_count ≠ some none then
    let bp := booleanPercents (jsShow c.true_count) (jsShow c.false_count)
    "Yes " ++ jsShow c.true_count ++ " (" ++ bp.1 ++ ") | No " ++
      jsShow c.false_count ++ " (" ++ bp.2 ++ ")"
  else ""

/-- The per-column information a renderer shows: name, type, range, values.
The type cell carries a JsValue because humanDataType can produce a non-string
object on a prototype-chain hit. -/
structure ColContent where
  name : String
  typeLabel : JsValue
  range : String
  values : String
deriving Repr, DecidableEq

/-- The per-table information a renderer shows. -/
structure TableContent where
  heading : String
  countLabel : String
  colCount : Nat
  columns : List ColContent
deriving Repr, DecidableEq

/-- The full content a renderer shows. -/
structure RenderContent where
  header : String
  tables : List TableContent
deriving Repr, DecidableEq

/-- One column row of the decorated renderer (the rows computation inside
renderTables of listTables.tsx). -/
def tsxRowFor (c : ColumnInfo) : ColContent :=
  ⟨c.column_name, humanDataType c.data_type, rangeFor c, valuesFor c⟩

def tsxTableContentFor (mode : Mode) (v : TableView) : TableContent :=
  ⟨v.table_schema ++ "." ++ v.table_name, countLabelFor mode v,
    v.column_count, v.columns.map tsxRowFor⟩

/-- Content of renderTables in listTables.tsx. -/
def tsxRenderContent (views : List TableView) (mode : Mode) : RenderContent :=
  ⟨tsxHeaderFor mode, views.map (tsxTableContentFor mode)⟩

/-- One column row of the plain renderer: printColumns of listTables.ts prints
the column name and the raw declared type, and nothing else. -/
def tsRowFor (c : ColumnInfo) : ColContent :=
  ⟨c.column_name, JsValue.str c.data_type, "", ""⟩

def tsTableContentFor (mode : Mode) (v : TableView) : TableContent :=
  ⟨v.table_schema ++ "." ++ v.table_name, tsCountLabel mode v,
    v.column_count, v.columns.map tsRowFor⟩

/-- Content of renderTables in listTables.ts. -/
def tsRenderContent (views : List TableView) (mode : Mode) : RenderContent :=
  ⟨tsHeaderFor mode, views.map (tsTableContentFor mode)⟩

/-- Function printColumns of listTables.ts, as the list of printed lines. -/
def printColumnsLines (columns : List ColumnInfo) : List String :=
  if columns.isEmpty then []
  else
    let maxName := (columns.map (fun c => c.column_name.length)).foldl max 0
    "  columns:" ::
      columns.map (fun c => "  " ++ padEnd c.column_name maxName ++ "  " ++ c.data_type)

/-- Function renderTables of listTables.ts, as the list of printed lines. -/
def renderTablesTsLines (views : List TableView) (mode : Mode) : List String :=
  tsHeaderFor mode ::
    views.flatMap (fun v =>
      ("\n- " ++ v.table_schema ++ "." ++ v.table_name ++ " — " ++
        tsCountLabel mode v ++ " rows, " ++ toString v.column_count ++ " cols\n") ::
      printColumnsLines v.columns)

/-! ## Catalog reader, statistics collector, view builders

The catalog and statistics queries run against a live database.  Their result
sets are inputs here: the SQL row transformations that the queries perform in
the database (the GREATEST clamp and the COALESCE column-count join of
fetchEstimatedTables) are modelled on explicit catalog rows, and the fallible
per-column and per-table queries are modelled as functions into Option, none
standing for a thrown query error. -/

/-- One row of the pg_class join enumerated by fetchEstimatedTables. -/
structure PgClassRow where
  nspname : String
  relname : String
  relkind : Char
  reltuples : Int
deriving Repr, DecidableEq

/-- One row of information_schema.columns. -/
structure InfoColumnRow where
  table_schema : String
  table_name : String
  column_name : String
  data_type : String
deriving Repr, DecidableEq

def systemSchema (s : String) : Bool :=
  s = "pg_catalog" ∨ s = "information_schema"

/-- Model of the SQL of fetchEstimatedTables (identical in both files): keep
ordinary tables outside system schemas; the column count is the COALESCE of
the grouped count (0 when no columns join); the estimated row count is
GREATEST(reltuples, 0).  The ORDER BY of the query only permutes rows and is
not modelled. -/
def fetchEstimatedTables (cat : List PgClassRow) (cols : List InfoColumnRow) :
    List TableInfo :=
  (cat.filter (fun r => r.relkind = 'r' ∧ ¬ systemSchema r.nspname)).map
    (fun r =>
      { table_schema := r.nspname
        table_name := r.relname
        column_count := (cols.filter (fun c =>
          c.table_schema = r.nspname ∧ c.table_name = r.relname)).length
        estimated_rows := max r.reltuples 0 })

/-- The view record buildEstimatedView builds for one table. -/
def estViewFor (columnsByTable : List (String × List ColumnInfo))
    (t : TableInfo) : TableView :=
  { table_schema := t.table_schema
    table_name := t.table_name
    column_count := t.column_count
    columns := (columnsByTable.lookup (t.table_schema ++ "." ++ t.table_name)).getD []
    estimated_rows := some t.estimated_rows
    exact_rows := none }

/-- Function buildEstimatedView (identical in both files): attach the column
list (empty when absent) and the estimated count to each table. -/
def buildEstimatedView (estimated : List TableInfo)
    (columnsByTable : List (String × List ColumnInfo)) : List TableView :=
  estimated.map (estViewFor columnsByTable)

/-- The view record buildExactView builds for one table: its count query
result, with a thrown query (none) recorded as null. -/
def exactViewFor (columnsByTable : List (String × List ColumnInfo))
    (countResult : TableInfo → Option Int) (t : TableInfo) : TableView :=
  { table_schema := t.table_schema
    table_name := t.table_name
    column_count := t.column_count
    columns := (columnsByTable.lookup (t.table_schema ++ "." ++ t.table_name)).getD []
    estimated_rows := none
    exact_rows := some (countResult t) }

/-- Function buildExactView (identical in both files): one exact-count query
per table, a thrown query recorded as null for that table only; every table
still yields a view. -/
def buildExactView (estimated : List TableInfo)
    (columnsByTable : List (String × List ColumnInfo))
    (countResult : TableInfo → Option Int) : List TableView :=
  estimated.map (exactViewFor columnsByTable countResult)

/-- A qualifying column returned by the column-selection query of the
statistics collector. -/
structure ColRef where
  table_schema : String
  table_name : String
  column_name : String
deriving Repr, DecidableEq

/-- One result row of a min-max query (each bound may be SQL NULL). -/
structure RangeRow where
  min : Option String
  max : Option String
deriving Repr, DecidableEq

/-- One result row of a boolean histogram query. -/
structure BoolCountRow where
  t : String
  f : String
deriving Repr, DecidableEq

/-- The accumulation key schema.table.column used by both collectors. -/
def rangeKey (c : ColRef) : String :=
  c.table_schema ++ "." ++ c.table_name ++ "." ++ c.column_name

/-- The entry recorded for one column by fetchNumericRanges of listTables.tsx:
a thrown query (none) records null bounds; otherwise the bounds of the first
result row, null when the row is missing. -/
def rangeEntry (q : ColRef → Option (List RangeRow)) (c : ColRef) : RangeRow :=
  match q c with
  | none => ⟨none, none⟩
  | some rows =>
      match rows.head? with
      | none => ⟨none, none⟩
      | some r => ⟨r.min, r.max⟩

/-- Function fetchNumericRanges of listTables.tsx: one query per qualifying
column, accumulated into a map keyed by rangeKey. -/
def fetchNumericRanges (cols : List ColRef)
    (q : ColRef → Option (List RangeRow)) : List (String × RangeRow) :=
  cols.map (fun c => (rangeKey c, rangeEntry q c))

/-- The entry recorded for one column by fetchBooleanHistograms of
listTables.tsx. -/
def histEntry (q : ColRef → Option (List BoolCountRow)) (c : ColRef) :
    Option String × Option String :=
  match q c with
  | none => (none, none)
  | some rows =>
      match rows.head? with
      | none => (none, none)
      | some r => (some r.t, some r.f)

/-- Function fetchBooleanHistograms of listTables.tsx. -/
def fetchBooleanHistograms (cols : List ColRef)
    (q : ColRef → Option (List BoolCountRow)) :
    List (String × (Option String × Option String)) :=
  cols.map (fun c => (rangeKey c, histEntry q c))

/-! ## Top-level run (function listTables of both files) -/

/-- Function listTables of listTables.ts after its two catalog queries
succeed: an empty enumeration prints exactly the no-tables message; otherwise
the selected view is rendered. -/
def listTablesTsLines (estimated : List TableInfo)
    (columnsByTable : List (String × List ColumnInfo)) (wantExact : Bool)
    (countResult : TableInfo → Option Int) : List String :=
  if estimated.isEmpty then ["No tables found."]
  else if ¬ wantExact then
    renderTablesTsLines (buildEstimatedView estimated columnsByTable) Mode.estimated
  else
    renderTablesTsLines (buildExactView estimated columnsByTable countResult) Mode.exact

/-- Function listTables of listTables.tsx after its catalog queries succeed:
either the no-tables message on the console, or the rendered content. -/
def listTablesTsxRun (estimated : List TableInfo)
    (columnsByTable : List (String × List ColumnInfo)) (wantExact : Bool)
    (countResult : TableInfo → Option Int) : String ⊕ RenderContent :=
  if estimated.isEmpty then Sum.inl "No tables found."
  else if ¬ wantExact then
    Sum.inr (tsxRenderContent (buildEstimatedView estimated columnsByTable) Mode.estimated)
  else
    Sum.inr (tsxRenderContent (buildExactView estimated columnsByTable countResult) Mode.exact)

/-! ## Helper lemmas -/

lemma lookup_mem_values {α β : Type} [BEq α] :
    ∀ (l : List (α × β)) (k : α) (v : β), l.lookup k = some v → v ∈ l.map Prod.snd := by
  intro l
  induction l with
  | nil =>
      intro k v h
      simp [List.lookup] at h
  | cons p l ih =>
      obtain ⟨pk, pv⟩ := p
      intro k v h
      rw [List.lookup] at h
      cases hbeq : (k == pk) with
      | true =>
          rw [hbeq] at h
          simp at h
          subst h
          exact List.mem_map_of_mem _ (List.mem_cons_self _ _)
      | false =>
          rw [hbeq] at h
          simp at h
          exact List.mem_cons_of_mem _ (ih k v h)

lemma typeAbbrev_le8 (k v : String) (h : typeAbbrevTable.lookup k = some v) :
    v.length ≤ 8 := by
  have hall : ∀ x ∈ typeAbbrevTable.map Prod.snd, x.length ≤ 8 := by decide
  exact hall v (lookup_mem_values _ _ _ h)

/-! ## Claim theorems -/

/-- Claim C9: when the catalog enumeration returns zero tables, the run prints
exactly the no-tables-found message and produces no table sections, in both
source variants, in either mode and for any count results. -/
theorem c9_empty_catalog (columnsByTable : List (String × List ColumnInfo))
    (wantExact : Bool) (countResult : TableInfo → Option Int) :
    listTablesTsLines [] columnsByTable wantExact countResult = ["No tables found."] ∧
    listTablesTsxRun [] columnsByTable wantExact countResult = Sum.inl "No tables found." :=
  ⟨rfl, rfl⟩

/-- Claim C4: in exact mode, every enumerated table yields a view; a failed
count query (none) renders the label error, which is distinct from the label 0
of a genuine zero count, and a successful count renders its decimal value, so
a failure is never coerced to zero. -/
theorem c4_exact_error_distinct (estimated : List TableInfo)
    (columnsByTable : List (String × List ColumnInfo))
    (countResult : TableInfo → Option Int) (t : TableInfo) (n : Int)
    (ht : t ∈ estimated) :
    exactViewFor columnsByTable countResult t ∈
      buildExactView estimated columnsByTable countResult ∧
    (countResult t = none →
      countLabelFor Mode.exact (exactViewFor columnsByTable countResult t) = "error" ∧
      countLabelFor Mode.exact (exactViewFor columnsByTable countResult t) ≠ "0") ∧
    (countResult t = some n →
      countLabelFor Mode.exact (exactViewFor columnsByTable countResult t) = toString n) ∧
    toString (0 : Int) = "0" := by
  refine ⟨List.mem_map_of_mem _ ht, ?_, ?_, rfl⟩
  · intro h
    constructor
    · simp [countLabelFor, exactViewFor, h]
    · simp [countLabelFor, exactViewFor, h]
  · intro hn
    simp [countLabelFor, exactViewFor, hn]

/-- Claim C4 witness at one concrete table with a failing count query. -/
theorem c4_exact_error_distinct_witness :
    exactViewFor [] (fun _ => none) ⟨"public", "users", 2, 5⟩ ∈
      buildExactView [⟨"public", "users", 2, 5⟩] [] (fun _ => none) ∧
    ((fun _ => (none : Option Int)) (⟨"public", "users", 2, 5⟩ : TableInfo) = none →
      countLabelFor Mode.exact (exactViewFor [] (fun _ => none) ⟨"public", "users", 2, 5⟩) = "error" ∧
      countLabelFor Mode.exact (exactViewFor [] (fun _ => none) ⟨"public", "users", 2, 5⟩) ≠ "0") ∧
    ((fun _ => (none : Option Int)) (⟨"public", "users", 2, 5⟩ : TableInfo) = some 0 →
      countLabelFor Mode.exact (exactViewFor [] (fun _ => none) ⟨"public", "users", 2, 5⟩) =
        toString (0 : Int)) ∧
    toString (0 : Int) = "0" :=
  c4_exact_error_distinct [⟨"public", "users", 2, 5⟩] [] (fun _ => none)
    ⟨"public", "users", 2, 5⟩ 0 (by decide)

/-- Claim C5: every table descriptor produced by the catalog enumeration model
has a non-negative estimated row count (the GREATEST clamp), and every
TableView built from those descriptors carries that non-negative estimate. -/
theorem c5_estimated_nonneg (cat : List PgClassRow) (cols : List InfoColumnRow)
    (columnsByTable : List (String × List ColumnInfo)) (t : TableInfo)
    (ht : t ∈ fetchEstimatedTables cat cols) :
    0 ≤ t.estimated_rows ∧
    estViewFor columnsByTable t ∈
      buildEstimatedView (fetchEstimatedTables cat cols) columnsByTable ∧
    (estViewFor columnsByTable t).estimated_rows = some t.estimated_rows := by
  refine ⟨?_, List.mem_map_of_mem _ ht, rfl⟩
  rcases List.mem_map.mp ht with ⟨r, hr, rfl⟩
  exact le_max_right _ _

/-- Claim C5 witness: a catalog row with a negative reltuples estimate is
clamped to a zero estimate, carried into its view. -/
theorem c5_estimated_nonneg_witness :
    0 ≤ (⟨"public", "users", 0, 0⟩ : TableInfo).estimated_rows ∧
    estViewFor [] ⟨"public", "users", 0, 0⟩ ∈
      buildEstimatedView (fetchEstimatedTables [⟨"public", "users", 'r', -1⟩] []) [] ∧
    (estViewFor [] ⟨"public", "users", 0, 0⟩).estimated_rows =
      some (⟨"public", "users", 0, 0⟩ : TableInfo).estimated_rows :=
  c5_estimated_nonneg [⟨"public", "users", 'r', -1⟩] [] []
    ⟨"public", "users", 0, 0⟩ (by decide)

/-- Claim C6: each qualifying column yields exactly one recorded entry in each
statistics collector; a failed query for one column records null statistics
for that column only, and the collectors still record an entry for every
column (one entry per input column, so no failure is fatal). -/
theorem c6_per_column_isolation (colsN : List ColRef)
    (qN : ColRef → Option (List RangeRow)) (colsB : List ColRef)
    (qB : ColRef → Option (List BoolCountRow)) (c b : ColRef)
    (hc : c ∈ colsN) (hb : b ∈ colsB) :
    ((rangeKey c, rangeEntry qN c) ∈ fetchNumericRanges colsN qN) ∧
    (qN c = none → rangeEntry qN c = ⟨none, none⟩) ∧
    (fetchNumericRanges colsN qN).length = colsN.length ∧
    ((rangeKey b, histEntry qB b) ∈ fetchBooleanHistograms colsB qB) ∧
    (qB b = none → histEntry qB b = (none, none)) ∧
    (fetchBooleanHistograms colsB qB).length = colsB.length := by
  refine ⟨List.mem_map_of_mem _ hc, ?_, List.length_map _ _,
    List.mem_map_of_mem _ hb, ?_, List.length_map _ _⟩
  · intro h
    simp [rangeEntry, h]
  · intro h
    simp [histEntry, h]

/-- Claim C6 witness: two concrete columns, each with a failing statistics
query, recorded as null statistics. -/
theorem c6_per_column_isolation_witness :
    ((rangeKey ⟨"public", "users", "age"⟩,
        rangeEntry (fun _ => none) ⟨"public", "users", "age"⟩) ∈
      fetchNumericRanges [⟨"public", "users", "age"⟩] (fun _ => none)) ∧
    ((fun _ => (none : Option (List RangeRow))) (⟨"public", "users", "age"⟩ : ColRef) = none →
      rangeEntry (fun _ => none) ⟨"public", "users", "age"⟩ = ⟨none, none⟩) ∧
    (fetchNumericRanges [⟨"public", "users", "age"⟩] (fun _ => none)).length =
      ([⟨"public", "users", "age"⟩] : List ColRef).length ∧
    ((rangeKey ⟨"public", "users", "active"⟩,
        histEntry (fun _ => none) ⟨"public", "users", "active"⟩) ∈
      fetchBooleanHistograms [⟨"public", "users", "active"⟩] (fun _ => none)) ∧
    ((fun _ => (none : Option (List BoolCountRow))) (⟨"public", "users", "active"⟩ : ColRef) = none →
      histEntry (fun _ => none) ⟨"public", "users", "active"⟩ = (none, none)) ∧
    (fetchBooleanHistograms [⟨"public", "users", "active"⟩] (fun _ => none)).length =
      ([⟨"public", "users", "active"⟩] : List ColRef).length :=
  c6_per_column_isolation [⟨"public", "users", "age"⟩] (fun _ => none)
    [⟨"public", "users", "active"⟩] (fun _ => none)
    ⟨"public", "users", "age"⟩ ⟨"public", "users", "active"⟩ (by decide) (by decide)

/-- Claim C8 counterexample: at the input constructor, not a key of the static
table, the object-literal index hits the inherited constructor property of the
prototype chain and humanDataType returns the Object constructor function: the
result is not the input truncated to 8 characters, not even the input itself,
and not a string label at all; likewise the proto accessor name yields
Object.prototype.  So the universal 8-character-label claim fails. -/
theorem c8_prototype_counterexample :
    humanDataType "constructor" = JsValue.objectCtor ∧
    typeAbbrevTable.lookup (jsToLower "constructor") = none ∧
    humanDataType "constructor" ≠ JsValue.str (strTake "constructor" 8) ∧
    humanDataType "constructor" ≠ JsValue.str "constructor" ∧
    humanDataType "__proto__" = JsValue.objectProto := by
  decide

/-- Claim C8 as amended: for every input type-name string whose lowercased
form is not one of the two inherited prototype member names (constructor and
the proto accessor), the humanized label is a string of at most 8 characters:
a type name found in the static table maps to its fixed abbreviation (itself
at most 8 characters), and an unrecognized type name passes through, truncated
to 8 characters when longer.  On those two names the index hits the prototype
chain and returns a non-string object instead. -/
theorem c8_humanDataType_len (dt : String)
    (hc : jsToLower dt ≠ "constructor") (hp : jsToLower dt ≠ "__proto__") :
    (∃ s : String, humanDataType dt = JsValue.str s ∧ s.length ≤ 8) ∧
    (∀ v : String, typeAbbrevTable.lookup (jsToLower dt) = some v →
      humanDataType dt = JsValue.str v ∧ v.length ≤ 8) ∧
    (typeAbbrevTable.lookup (jsToLower dt) = none →
      (dt.length > 8 → humanDataType dt = JsValue.str (strTake dt 8)) ∧
      (dt.length ≤ 8 → humanDataType dt = JsValue.str dt)) := by
  cases hlk : typeAbbrevTable.lookup (jsToLower dt) with
  | some v =>
      have h8 := typeAbbrev_le8 _ _ hlk
      have hm : mapIndex (jsToLower dt) = some (JsValue.str v) := by
        simp only [mapIndex, hlk]
      have heq : humanDataType dt = JsValue.str v := by
        simp only [humanDataType, hm]
        exact if_neg (by omega)
      refine ⟨⟨v, heq, h8⟩, ?_, ?_⟩
      · intro v2 hv2
        injection hv2 with h
        subst h
        exact ⟨heq, h8⟩
      · intro hnone
        simp at hnone
  | none =>
      have hm : mapIndex (jsToLower dt) = none := by
        simp only [mapIndex, hlk]
        rw [if_neg hc, if_neg hp]
      have htrunc : dt.length > 8 → humanDataType dt = JsValue.str (strTake dt 8) := by
        intro hlong
        simp only [humanDataType, hm]
        exact if_pos hlong
      have hpass : dt.length ≤ 8 → humanDataType dt = JsValue.str dt := by
        intro hshort
        simp only [humanDataType, hm]
        exact if_neg (by omega)
      refine ⟨?_, ?_, fun _ => ⟨htrunc, hpass⟩⟩
      · by_cases hlen : dt.length > 8
        · refine ⟨strTake dt 8, htrunc hlen, ?_⟩
          show (dt.data.take 8).length ≤ 8
          rw [List.length_take]
          omega
        · exact ⟨dt, hpass (by omega), by omega⟩
      · intro v2 hv2
        simp at hv2

/-- Claim C8 witness: a recognized type maps to its abbreviation and a long
unrecognized type is truncated to 8 characters; neither input lowercases to an
inherited prototype name. -/
theorem c8_humanDataType_len_witness :
    humanDataType "character varying" = JsValue.str "varchar" ∧
    ("varchar" : String).length ≤ 8 ∧
    humanDataType "averyverylongtypename" = JsValue.str (strTake "averyverylongtypename" 8) :=
  ⟨((c8_humanDataType_len "character varying" (by decide) (by decide)).2.1
      "varchar" (by decide)).1,
   ((c8_humanDataType_len "character varying" (by decide) (by decide)).2.1
      "varchar" (by decide)).2,
   ((c8_humanDataType_len "averyverylongtypename" (by decide) (by decide)).2.2
      (by decide)).1 (by decide)⟩

/-- Claim C7: date and timestamp columns with parsable min and max bounds
render the calendar-month range built from their month abbreviations and
years; the documented concrete instance renders Jan 2020-Oct 2025; and an
unparsable bound makes the range cell of the renderer empty rather than an
error. -/
theorem c7_temporal_range (minS maxS dt : String) (d1 d2 : DateParts)
    (_hdt : isTemporalDataType dt = true) (hto : timeOnlyType dt = false)
    (h1 : safeParseDateLike minS = some d1) (h2 : safeParseDateLike maxS = some d2) :
    formatTemporalRange minS maxS dt = some (fmtMonthYear d1 ++ "-" ++ fmtMonthYear d2) ∧
    formatTemporalRange "2020-01-15" "2025-10-03" "date" = some "Jan 2020-Oct 2025" ∧
    (∀ c : ColumnInfo, isNumericDataType c.data_type = false →
      isTemporalDataType c.data_type = true →
      formatTemporalRange (jsShow c.min) (jsShow c.max) c.data_type = none →
      rangeFor c = "") := by
  refine ⟨?_, by decide, ?_⟩
  · unfold formatTemporalRange
    rw [hto]
    simp [h1, h2]
  · intro c hn ht hfmt
    unfold rangeFor
    rw [if_neg (by simp [hn])]
    split
    · rw [hfmt]
      rfl
    · rfl

/-- Claim C7 witness at the documented concrete bounds of a date column. -/
theorem c7_temporal_range_witness :
    formatTemporalRange "2020-01-15" "2025-10-03" "date" =
      some (fmtMonthYear ⟨2020, 1, 15, 0, 0⟩ ++ "-" ++ fmtMonthYear ⟨2025, 10, 3, 0, 0⟩) :=
  (c7_temporal_range "2020-01-15" "2025-10-03" "date" ⟨2020, 1, 15, 0, 0⟩
    ⟨2025, 10, 3, 0, 0⟩ (by decide) (by decide) (by decide) (by decide)).1

lemma formatPercent_last (n d : Int) :
    (formatPercentOneDecimal n d).data.getLast? = some '%' := by
  unfold formatPercentOneDecimal
  split
  · rfl
  · show ((toString (Int.tdiv (Int.tdiv (n * 1000 + Int.tdiv d 2) d) 10) ++ "." ++
      toString (Int.tmod (Int.tdiv (n * 1000 + Int.tdiv d 2) d) 10) ++ "%").data.getLast?
        = some '%')
    rw [String.data_append]
    have hpc : ("%" : String).data = ['%'] := rfl
    rw [hpc, List.getLast?_concat]

/-- Claim C10: the boolean-percentage computation is total over arbitrary
count strings; a string the BigInt constructor rejects is treated as the count
zero (behaving exactly like the string 0), two malformed inputs yield 0.0% for
both percentages, and the two results are always percent strings (they end in
the percent sign). -/
theorem c10_malformed_counts_zero (sT sF : String)
    (hT : parseBigIntJS sT = none) (hF : parseBigIntJS sF = none) :
    booleanPercents sT sF = ("0.0%", "0.0%") ∧
    (∀ s2 : String, booleanPercents sT s2 = booleanPercents "0" s2) ∧
    (∀ s1 s2 : String,
      ((booleanPercents s1 s2).1.data.getLast? = some '%') ∧
      ((booleanPercents s1 s2).2.data.getLast? = some '%')) := by
  have h0 : parseBigIntJS "0" = some 0 := by decide
  refine ⟨?_, ?_, ?_⟩
  · simp [booleanPercents, hT, hF]
    rfl
  · intro s2
    simp [booleanPercents, hT, h0]
  · intro s1 s2
    exact ⟨formatPercent_last _ _, formatPercent_last _ _⟩

/-- Claim C10 witness at two concrete malformed count strings. -/
theorem c10_malformed_counts_zero_witness :
    booleanPercents "abc" "12.5" = ("0.0%", "0.0%") ∧
    booleanPercents "abc" "14000" = booleanPercents "0" "14000" ∧
    ((booleanPercents "28000" "14000").1.data.getLast? = some '%') ∧
    ((booleanPercents "28000" "14000").2.data.getLast? = some '%') :=
  ⟨(c10_malformed_counts_zero "abc" "12.5" (by decide) (by decide)).1,
   (c10_malformed_counts_zero "abc" "12.5" (by decide) (by decide)).2.1 "14000",
   (c10_malformed_counts_zero "abc" "12.5" (by decide) (by decide)).2.2 "28000" "14000"⟩

/-- Claim C1 counterexample: the plain-text renderer and the decorated
renderer do not render the same per-column information.  On a table with a
varchar column, a date column carrying bounds and a boolean column carrying
counts, the plain variant prints the raw declared type and never prints a
range or a values cell, while the decorated variant prints the humanized type,
the month range and the yes/no percentages, so the extracted contents
differ. -/
theorem c1_content_equiv_counterexample :
    tsRenderContent
      [{ table_schema := "public", table_name := "users", column_count := 3,
         columns :=
           [⟨"name", "character varying", none, none, none, none⟩,
            ⟨"created_at", "date", some (some "2020-01-15"),
              some (some "2025-10-03"), none, none⟩,
            ⟨"active", "boolean", none, none, some (some "28000"),
              some (some "14000")⟩],
         estimated_rows := some 42, exact_rows := none }] Mode.estimated ≠
    tsxRenderContent
      [{ table_schema := "public", table_name := "users", column_count := 3,
         columns :=
           [⟨"name", "character varying", none, none, none, none⟩,
            ⟨"created_at", "date", some (some "2020-01-15"),
              some (some "2025-10-03"), none, none⟩,
            ⟨"active", "boolean", none, none, some (some "28000"),
              some (some "14000")⟩],
         estimated_rows := some 42, exact_rows := none }] Mode.estimated := by
  decide

/-- Claim C1 as amended: for every list of table views and every mode, the two
renderers agree on the header text, the per-table headings, the row-count
labels, the column counts, and the column names in order; the per-column type,
range and values cells are not shared content, since the plain renderer shows
the raw declared type and omits range and values. -/
theorem c1_amended_content_agreement (views : List TableView) (mode : Mode) :
    (tsRenderContent views mode).header = (tsxRenderContent views mode).header ∧
    (tsRenderContent views mode).tables.map TableContent.heading =
      (tsxRenderContent views mode).tables.map TableContent.heading ∧
    (tsRenderContent views mode).tables.map TableContent.countLabel =
      (tsxRenderContent views mode).tables.map TableContent.countLabel ∧
    (tsRenderContent views mode).tables.map TableContent.colCount =
      (tsxRenderContent views mode).tables.map TableContent.colCount ∧
    (tsRenderContent views mode).tables.map (fun tc => tc.columns.map ColContent.name) =
      (tsxRenderContent views mode).tables.map (fun tc => tc.columns.map ColContent.name) := by
  refine ⟨by cases mode <;> rfl, ?_, ?_, ?_, ?_⟩
  · simp only [tsRenderContent, tsxRenderContent, List.map_map]
    rfl
  · simp only [tsRenderContent, tsxRenderContent, List.map_map]
    rfl
  · simp only [tsRenderContent, tsxRenderContent, List.map_map]
    rfl
  · simp only [tsRenderContent, tsxRenderContent, List.map_map]
    apply List.map_congr_left
    intro v hv
    show ((v.columns.map tsRowFor).map ColContent.name) =
      ((v.columns.map tsxRowFor).map ColContent.name)
    rw [List.map_map, List.map_map]
    rfl

/-- The permille value computed by formatPercentOneDecimal on non-negative
inputs with a non-zero total, expressed over Nat. -/
def permilleNat (n d : Nat) : Nat := (n * 1000 + d / 2) / d

lemma sum_bounds_aux (p1 p2 x i : Nat) (key : 1000 + x = p1 + p2 + i)
    (hx : x ≤ 1) (hi : i ≤ 1) : 999 ≤ p1 + p2 ∧ p1 + p2 ≤ 1001 := by
  omega

lemma permille_sum_bounds (t f : Nat) (h : 0 < t + f) :
    999 ≤ permilleNat t (t + f) + permilleNat f (t + f) ∧
    permilleNat t (t + f) + permilleNat f (t + f) ≤ 1001 := by
  have key : (t * 1000 + (t + f) / 2 + (f * 1000 + (t + f) / 2)) / (t + f)
      = (t * 1000 + (t + f) / 2) / (t + f) + (f * 1000 + (t + f) / 2) / (t + f)
        + if (t + f) ≤ (t * 1000 + (t + f) / 2) % (t + f)
            + (f * 1000 + (t + f) / 2) % (t + f) then 1 else 0 :=
    Nat.add_div h
  have hnum : t * 1000 + (t + f) / 2 + (f * 1000 + (t + f) / 2)
      = (t + f) * 1000 + 2 * ((t + f) / 2) := by
    omega
  rw [hnum] at key
  have e2 : ((t + f) * 1000 + 2 * ((t + f) / 2)) / (t + f)
      = 1000 + 2 * ((t + f) / 2) / (t + f) :=
    Nat.mul_add_div h 1000 (2 * ((t + f) / 2))
  rw [e2] at key
  have e3 : 2 * ((t + f) / 2) / (t + f) ≤ 1 := by
    have h1 : 2 * ((t + f) / 2) ≤ t + f := by omega
    calc 2 * ((t + f) / 2) / (t + f) ≤ (t + f) / (t + f) := Nat.div_le_div_right h1
    _ = 1 := Nat.div_self h
  have hite : (if (t + f) ≤ (t * 1000 + (t + f) / 2) % (t + f)
      + (f * 1000 + (t + f) / 2) % (t + f) then 1 else 0) ≤ 1 := by
    split
    · exact le_refl 1
    · exact Nat.zero_le 1
  exact sum_bounds_aux _ _ _ _ key e3 hite

lemma tdiv_coe (a b : Nat) :
    Int.tdiv (a : Int) (b : Int) = ((a / b : Nat) : Int) := rfl

lemma tmod_coe (a b : Nat) :
    Int.tmod (a : Int) (b : Int) = ((a % b : Nat) : Int) := rfl

lemma tdiv_coe_two (a : Nat) : Int.tdiv (a : Int) 2 = ((a / 2 : Nat) : Int) := rfl

lemma tdiv_coe_ten (a : Nat) : Int.tdiv (a : Int) 10 = ((a / 10 : Nat) : Int) := rfl

lemma tmod_coe_ten (a : Nat) : Int.tmod (a : Int) 10 = ((a % 10 : Nat) : Int) := rfl

lemma toString_intCast (m : Nat) : toString ((m : Nat) : Int) = toString m := rfl

lemma formatPercent_coe (n d : Nat) (hd : d ≠ 0) :
    formatPercentOneDecimal (n : Int) (d : Int) =
      toString (permilleNat n d / 10) ++ "." ++
        toString (permilleNat n d % 10) ++ "%" := by
  show (if (d : Int) = 0 then "0.0%"
    else toString (Int.tdiv (Int.tdiv ((n : Int) * 1000 + Int.tdiv (d : Int) 2) (d : Int)) 10)
      ++ "." ++ toString (Int.tmod (Int.tdiv ((n : Int) * 1000 + Int.tdiv (d : Int) 2) (d : Int)) 10)
      ++ "%") = _
  rw [if_neg (by exact_mod_cast hd)]
  have h1 : (n : Int) * 1000 + Int.tdiv (d : Int) 2 = ((n * 1000 + d / 2 : Nat) : Int) := by
    rw [tdiv_coe_two]
    push_cast
    ring
  rw [h1, tdiv_coe, tdiv_coe_ten, tmod_coe_ten, toString_intCast, toString_intCast]
  rfl

/-- Claim C3: for all non-negative integers t and f with positive total, the
two rendered permille values sum to 1000 within a tolerance of one tenth of a
percent (in fact between 999 and 1001), the rendered string is the decimal
rendering whole.tenth of that permille value, and both percentages of a zero
total render as 0.0%. -/
theorem c3_percent_sum_tolerance (t f : Nat) (h : 0 < t + f) :
    999 ≤ permilleNat t (t + f) + permilleNat f (t + f) ∧
    permilleNat t (t + f) + permilleNat f (t + f) ≤ 1001 ∧
    formatPercentOneDecimal (t : Int) ((t : Int) + (f : Int)) =
      toString (permilleNat t (t + f) / 10) ++ "." ++
        toString (permilleNat t (t + f) % 10) ++ "%" ∧
    formatPercentOneDecimal 0 0 = "0.0%" := by
  obtain ⟨hlo, hhi⟩ := permille_sum_bounds t f h
  refine ⟨hlo, hhi, ?_, rfl⟩
  have hcast : (t : Int) + (f : Int) = ((t + f : Nat) : Int) := by
    push_cast
    ring
  rw [hcast]
  exact formatPercent_coe t (t + f) (by omega)

/-- Claim C3 witness at t = 1, f = 2. -/
theorem c3_percent_sum_tolerance_witness :
    999 ≤ permilleNat 1 3 + permilleNat 2 3 ∧
    permilleNat 1 3 + permilleNat 2 3 ≤ 1001 ∧
    formatPercentOneDecimal ((1 : Nat) : Int) (((1 : Nat) : Int) + ((2 : Nat) : Int)) =
      toString (permilleNat 1 3 / 10) ++ "." ++ toString (permilleNat 1 3 % 10) ++ "%" ∧
    formatPercentOneDecimal 0 0 = "0.0%" :=
  c3_percent_sum_tolerance 1 2 (by decide)

end Overpaint
